import Mathlib

/-!
Verification development for the wg-web-ui backend core
(`backend/app/wg_easy_client.py` and the reconciliation handlers in
`backend/app/main.py`).

Shallow embedding conventions:
* `datetime` values become `Int` timestamps in seconds; `timedelta(seconds=n)`
  becomes the integer `n`, `timedelta(days=7)` becomes `7 * 86400`.
* The network is an explicit parameter: each function that performs an HTTP
  exchange receives the outcome of that exchange (transport failure, or a
  response with a status and the relevant fields) and the embedding records
  whether the exchange was actually consumed (`loginAttempted` / the sent
  payload), so "no network call" is a provable statement.
* SQLAlchemy rows become Lean structures; `db.add`/`db.commit` become the
  returned updated record; nullable columns become `Option`.
-/

namespace WgWebUi

/-- Session-state and health fields of the `WgServer` SQLAlchemy model
(`models.py`): `last_status_ok` is a non-nullable Boolean, the remaining
four fields are nullable. Identity/credential columns are irrelevant to the
claims and omitted. -/
structure WgServer where
  last_status_ok : Bool
  last_checked_at : Option Int
  last_error : Option String
  session_cookie : Option String
  session_expires_at : Option Int
  deriving Repr, DecidableEq

/-- Outcome of the login POST in `_ensure_session_cookie`: a raised transport
exception, or a response carrying its status code and the value of the
`set-cookie` header (`none` when the header is absent). -/
inductive LoginNet where
  | failure (msg : String)
  | response (status : Nat) (setCookie : Option String)
  deriving Repr, DecidableEq

/-- Whether `pat` is an initial segment of the character list. -/
def listStartsWith : List Char → List Char → Bool
  | [], _ => true
  | _ :: _, [] => false
  | p :: ps, c :: cs => p = c && listStartsWith ps cs

/-- Split a character list at the first occurrence of `pat`, returning the
characters before it and the characters after it, or `none` when `pat` does
not occur (strings are embedded as their character lists so that these
operations evaluate). -/
def splitFirstChars (pat : List Char) : List Char → Option (List Char × List Char)
  | [] => none
  | c :: rest =>
    if listStartsWith pat (c :: rest) then some ([], (c :: rest).drop pat.length)
    else (splitFirstChars pat rest).map (fun pr => (c :: pr.1, pr.2))

/-- Python substring containment `pat in s`. -/
def containsSub (pat s : String) : Bool :=
  (splitFirstChars pat.data s.data).isSome

/-- Python `"wg-easy=" in set_cookie` (line 132). -/
def hasWgEasy (s : String) : Bool :=
  containsSub "wg-easy=" s

/-- Python `set_cookie.split("wg-easy=", 1)[1].split(";", 1)[0]` (line 141):
everything after the first occurrence of `"wg-easy="`, truncated at the
first `;`. (The `none` fallback is unreachable: the caller has already
checked containment, where Python would raise an IndexError.) -/
def extractCookie (setCookie : String) : String :=
  match splitFirstChars "wg-easy=".data setCookie.data with
  | none => ""
  | some (_, after) =>
    match splitFirstChars ";".data after with
    | none => String.mk after
    | some (pre, _) => String.mk pre

/-- Result of `_ensure_session_cookie`: the `(cookie_value, error_message)`
pair it returns, the server row after any `db.commit`, and whether the login
POST was performed at all. -/
structure EnsureResult where
  cookie : Option String
  error : Option String
  server : WgServer
  loginAttempted : Bool
  deriving Repr, DecidableEq

/-- The login branch of `_ensure_session_cookie` (`wg_easy_client.py`
lines 103-149): POST to `/api/session`, then the three failure branches
(transport exception, non-200 status, missing `wg-easy` cookie) and the
success branch that stores the cookie with a 3600-second lifetime. -/
def performLogin (now : Int) (server : WgServer) (net : LoginNet) : EnsureResult :=
  match net with
  | .failure msg =>
      { cookie := none
        error := some ("Login request failed: " ++ msg)
        server := { server with
          last_status_ok := false
          last_error := some msg
          last_checked_at := some now }
        loginAttempted := true }
  | .response status setCookie =>
      if status ≠ 200 then
        let err := "Login failed with status " ++ toString status
        { cookie := none
          error := some err
          server := { server with
            last_status_ok := false
            last_error := some err
            last_checked_at := some now }
          loginAttempted := true }
      else
        -- Python: `if not set_cookie or "wg-easy=" not in set_cookie`
        -- (a missing header and an empty header string are both falsy).
        match setCookie with
        | none =>
            let err := "wg-easy cookie not found in response"
            { cookie := none
              error := some err
              server := { server with
                last_status_ok := false
                last_error := some err
                last_checked_at := some now }
              loginAttempted := true }
        | some sc =>
            if sc = "" ∨ ¬ hasWgEasy sc then
              let err := "wg-easy cookie not found in response"
              { cookie := none
                error := some err
                server := { server with
                  last_status_ok := false
                  last_error := some err
                  last_checked_at := some now }
                loginAttempted := true }
            else
              let cookieValue := extractCookie sc
              { cookie := some cookieValue
                error := none
                server := { server with
                  session_cookie := some cookieValue
                  session_expires_at := some (now + 3600)
                  last_status_ok := true
                  last_error := none
                  last_checked_at := some now }
                loginAttempted := true }

/-- The cached-session fast path test of `_ensure_session_cookie`
(lines 99-101): Python `if server.session_cookie and server.session_expires_at`
(an empty cookie string is falsy) followed by
`if server.session_expires_at > now + timedelta(seconds=60)`. -/
def cacheFresh (now : Int) (server : WgServer) : Bool :=
  match server.session_cookie, server.session_expires_at with
  | some c, some exp => c ≠ "" ∧ now + 60 < exp
  | _, _ => false

/-- Function `_ensure_session_cookie(db, server)` (`wg_easy_client.py`
lines 90-149), with the login POST outcome supplied as `net`. -/
def ensureSessionCookie (now : Int) (server : WgServer) (net : LoginNet) :
    EnsureResult :=
  if cacheFresh now server then
    { cookie := server.session_cookie
      error := none
      server := server
      loginAttempted := false }
  else
    performLogin now server net

/-- The `TrafficSample` dataclass (`wg_easy_client.py` lines 27-31). -/
structure TrafficSample where
  ts : Int
  total_rx : Int
  total_tx : Int
  deriving Repr, DecidableEq

/-- The `TRAFFIC_HISTORY` dict (line 35), embedded as a total map from server
id to that server's sample list (`dict.get(k, [])` / `setdefault(k, [])`
both read off the empty default). -/
def TrafficStore := Int → List TrafficSample

/-- Function `record_traffic_snapshot` (lines 38-44): append a sample stamped `now`,
then keep only samples with `ts >= now - 7 days`. -/
def record_traffic_snapshot (store : TrafficStore) (server_id : Int)
    (now total_rx total_tx : Int) : TrafficStore :=
  fun sid =>
    if sid = server_id then
      let history := store server_id ++ [⟨now, total_rx, total_tx⟩]
      let cutoff := now - 7 * 86400
      history.filter (fun h => cutoff ≤ h.ts)
    else store sid

/-- Python `min` over a non-empty list (with a default for the empty case
that the code never reaches). -/
def listMin (xs : List Int) : Int :=
  match xs with
  | [] => 0
  | x :: rest => rest.foldl min x

/-- Python `max` over a non-empty list (with a default for the empty case
that the code never reaches). -/
def listMax (xs : List Int) : Int :=
  match xs with
  | [] => 0
  | x :: rest => rest.foldl max x

/-- The in-window sample selection of `get_traffic_delta_for_period`
(lines 59-60): samples with `ts >= now - period_seconds`. -/
def windowOf (history : List TrafficSample) (now period_seconds : Int) :
    List TrafficSample :=
  history.filter (fun h => now - period_seconds ≤ h.ts)

/-- Function `get_traffic_delta_for_period` (lines 47-68): `(0, 0)` on an empty
history or a window with fewer than 2 samples, otherwise the clamped
max-minus-min of the cumulative counters over the window. -/
def get_traffic_delta_for_period (store : TrafficStore) (server_id : Int)
    (period_seconds : Int) (now : Int) : Int × Int :=
  let history := store server_id
  if history.isEmpty then (0, 0)
  else
    let window := windowOf history now period_seconds
    if window.length < 2 then (0, 0)
    else
      let min_rx := listMin (window.map TrafficSample.total_rx)
      let max_rx := listMax (window.map TrafficSample.total_rx)
      let min_tx := listMin (window.map TrafficSample.total_tx)
      let max_tx := listMax (window.map TrafficSample.total_tx)
      (max 0 (max_rx - min_rx), max 0 (max_tx - min_tx))

/-! ## Peer synchronization engine (`main.py`) -/

/-- The fields of `WgClientInfo` that the import handler reads (id, name,
expiry); expiry timestamps are embedded as `Int` seconds. -/
structure ClientInfo where
  id : Int
  name : String
  expires_at : Option Int
  deriving Repr, DecidableEq

/-- A `UserServerBinding` row (`models.py`): links a logical user to one
`(server_id, wg_client_id)` pair with a cached peer name and expiry. -/
structure Binding where
  logical_user_id : Int
  server_id : Int
  wg_client_id : Int
  wg_client_name : String
  expires_at : Option Int
  deriving Repr, DecidableEq

/-- A `LogicalUser` row: id and name. -/
structure UserRow where
  id : Int
  name : String
  deriving Repr, DecidableEq

/-- The local registry visible to the import handler: logical users,
bindings, and the id the next `db.flush()` will assign. -/
structure Registry where
  users : List UserRow
  bindings : List Binding
  nextUserId : Int
  deriving Repr, DecidableEq

/-- Python `db.query(UserServerBinding).filter(server_id == s,
wg_client_id == c).first() is not None`. -/
def hasBindingForPeer (bindings : List Binding) (server_id wg_client_id : Int) :
    Bool :=
  bindings.any (fun b => b.server_id = server_id ∧ b.wg_client_id = wg_client_id)

/-- Python `db.query(UserServerBinding).filter(logical_user_id == u,
server_id == s).first() is not None`. -/
def hasBindingForServer (bindings : List Binding) (logical_user_id server_id : Int) :
    Bool :=
  bindings.any (fun b =>
    b.logical_user_id = logical_user_id ∧ b.server_id = server_id)

/-- One iteration of the loop in `import_clients_from_server` (`main.py`
lines 382-407): skip the peer when a binding for `(server_id, peer id)`
already exists (the loop queries the session, so bindings added earlier in
the same pass are visible via autoflush); otherwise create a `LogicalUser`
named after the peer and a `UserServerBinding` copying its name and expiry,
counting both. The accumulator carries
`(registry, created_users, created_bindings)`. -/
def importStep (server_id : Int) (st : Registry × Nat × Nat) (c : ClientInfo) :
    Registry × Nat × Nat :=
  let (reg, created_users, created_bindings) := st
  if hasBindingForPeer reg.bindings server_id c.id then
    st
  else
    let uid := reg.nextUserId
    let reg' : Registry :=
      { users := reg.users ++ [⟨uid, c.name⟩]
        bindings := reg.bindings ++
          [⟨uid, server_id, c.id, c.name, c.expires_at⟩]
        nextUserId := uid + 1 }
    (reg', created_users + 1, created_bindings + 1)

/-- The loop body of `import_clients_from_server` (`main.py` lines 379-409),
given the peer list returned by `list_clients`: returns the updated registry
and the `created_users` / `created_bindings` counters. -/
def import_clients_from_server (server_id : Int) (reg : Registry)
    (clients : List ClientInfo) : Registry × Nat × Nat :=
  clients.foldl (importStep server_id) (reg, 0, 0)

/-- Identity and display name of a `WgServer` row as used by mass-attach. -/
structure ServerRec where
  id : Int
  name : String
  deriving Repr, DecidableEq

/-- Accumulated state of the mass-attach loop: the counters and error list
the handler returns, plus the binding table (pre-existing rows and the rows
added by this pass, which the per-server query sees via autoflush). -/
structure MassAttachState where
  created : Nat
  skipped : Nat
  errors : List (String × String)
  bindings : List Binding
  deriving Repr, DecidableEq

/-- Python truthiness of an optional string: `None` and `""` are falsy. -/
def strTruthy (e : Option String) : Bool :=
  match e with
  | some s => s ≠ ""
  | none => false

/-- Python `error or "Failed to create client"` (an absent or empty error
string falls back to the default). -/
def errOrDefault (e : Option String) : String :=
  match e with
  | some s => if s = "" then "Failed to create client" else s
  | none => "Failed to create client"

/-- One iteration of the loop in `attach_user_to_all_servers` (`main.py`
lines 695-723): skip the server when the user already has a binding there;
otherwise call `create_client` (its outcome for each server is supplied by
`net : server id -> (client_id, error)`), record an error entry when it
fails, and otherwise add a binding and count it as created. -/
def massAttachStep (user_id : Int) (user_name : String) (expires_at : Option Int)
    (net : Int → Option Int × Option String) (st : MassAttachState)
    (server : ServerRec) : MassAttachState :=
  if hasBindingForServer st.bindings user_id server.id then
    { st with skipped := st.skipped + 1 }
  else
    let res := net server.id
    -- Python: `if error or client_id is None: errors.append(...); continue`
    if strTruthy res.2 ∨ res.1 = none then
      { st with errors := st.errors ++ [(server.name, errOrDefault res.2)] }
    else
      { st with
        created := st.created + 1
        bindings := st.bindings ++
          [⟨user_id, server.id, res.1.getD 0, user_name, expires_at⟩] }

/-- The loop body of `attach_user_to_all_servers` (`main.py` lines 687-733):
fold over every known server starting from zero counters and the
pre-existing binding table. (The early return for an empty server list
produces the same counters as folding over the empty list.) -/
def attach_user_to_all_servers (user_id : Int) (user_name : String)
    (expires_at : Option Int) (servers : List ServerRec)
    (bindings0 : List Binding) (net : Int → Option Int × Option String) :
    MassAttachState :=
  servers.foldl (massAttachStep user_id user_name expires_at net)
    ⟨0, 0, [], bindings0⟩

/-- Whether the login outcome falls in the success branch of
`_ensure_session_cookie`: a 200 response whose `set-cookie` header is
present, non-empty and contains the `wg-easy` cookie. All other outcomes
take one of the three failure branches. -/
def loginSucceeds : LoginNet → Bool
  | LoginNet.response status (some sc) => status = 200 ∧ sc ≠ "" ∧ hasWgEasy sc
  | _ => false

/-! ## Create peer (`wg_easy_client.py`, `create_client`) -/

/-- A JSON value as far as the create-peer payload needs: the `expiresAt`
field is either JSON `null` or a string; `name` is a string. -/
inductive JsonField where
  | null
  | str (s : String)
  deriving Repr, DecidableEq

/-- The ISO-8601 rendering with `Z` suffix performed at lines 201-205.
The claims depend only on the rendered value being a (non-null) string, so
the embedding renders the timestamp as decimal seconds with the `Z` suffix
rather than reproduce calendar formatting. -/
def isoZ (t : Int) : String :=
  toString t ++ "Z"

/-- Value placed under the `expiresAt` key of the create-peer payload
(lines 199-205): JSON `null` when no expiry is given, else the rendered
ISO string. -/
def expiryField (expires_at : Option Int) : JsonField :=
  match expires_at with
  | none => JsonField.null
  | some t => JsonField.str (isoZ t)

/-- Outcome of the create-peer POST: a raised transport exception, or a
response with its status code, the parsed body's `success` flag (`false`
also stands for an absent flag, both falsy in `data.get("success")`), the
body's `clientId`, and the raw response text used in error messages. -/
inductive CreateNet where
  | failure (msg : String)
  | response (status : Nat) (success : Bool) (clientId : Int) (text : String)
  deriving Repr, DecidableEq

/-- Result of `create_client`: the returned `(client_id, error)` pair, and
the JSON payload of the POST when one was issued (`none` when the session
step failed and no request was made). -/
structure CreateResult where
  clientId : Option Int
  error : Option String
  sentPayload : Option (List (String × JsonField))
  deriving Repr, DecidableEq

/-- Python `error or "No cookie"`. -/
def errOrNoCookie (e : Option String) : String :=
  match e with
  | some s => if s = "" then "No cookie" else s
  | none => "No cookie"

/-- Function `create_client(db, server, name, expires_at)` (`wg_easy_client.py`
lines 190-229). `sess` is the `(cookie, error)` pair returned by
`_ensure_session_cookie`; `net` is the outcome of the POST. On a session
failure the call returns before any request. Otherwise the payload always
carries the `expiresAt` key; a non-200 status or a falsy `success` flag is
an error, and only a 200 response with a true `success` flag yields the
remote-assigned client id. -/
def create_client (sess : Option String × Option String) (name : String)
    (expires_at : Option Int) (net : CreateNet) : CreateResult :=
  let (cookie, error) := sess
  -- Python: `if error or not cookie: return None, error or "No cookie"`
  if strTruthy error ∨ ¬ strTruthy cookie then
    { clientId := none, error := some (errOrNoCookie error), sentPayload := none }
  else
    let payload : List (String × JsonField) :=
      [("name", JsonField.str name), ("expiresAt", expiryField expires_at)]
    match net with
    | .failure msg =>
        { clientId := none, error := some msg, sentPayload := some payload }
    | .response status success clientId text =>
        if status ≠ 200 then
          { clientId := none
            error := some ("create client failed with status " ++
              toString status ++ ": " ++ text)
            sentPayload := some payload }
        else if ¬ success then
          { clientId := none
            error := some "wg-easy did not return success"
            sentPayload := some payload }
        else
          { clientId := some clientId, error := none, sentPayload := some payload }

/-! ## Theorems -/

/-- C1, counterexample: a remote whose cached credential is present (the
field is set — to the empty string, which the code's truthiness test treats
as absent) and whose cached expiry (1000) is more than 60 seconds after the
current time (0) still triggers a login: `loginAttempted` is true, the
returned cookie is not the cached one, and the record is mutated. This
refutes the claim as stated for every present cached credential. -/
theorem c1_counterexample :
    (WgServer.session_cookie ⟨false, none, none, some "", some 1000⟩).isSome ∧
    (WgServer.session_expires_at ⟨false, none, none, some "", some 1000⟩) = some 1000 ∧
    (0 : Int) + 60 < 1000 ∧
    (ensureSessionCookie 0 ⟨false, none, none, some "", some 1000⟩
      (LoginNet.response 200 (some "wg-easy=tok"))).loginAttempted = true ∧
    (ensureSessionCookie 0 ⟨false, none, none, some "", some 1000⟩
      (LoginNet.response 200 (some "wg-easy=tok"))).server ≠
      ⟨false, none, none, some "", some 1000⟩ := by
  decide

/-- C1 (amended: the cached credential must be present *and non-empty*):
whenever the cached credential is a non-empty string and the cached expiry
is more than 60 seconds after the current time, `_ensure_session_cookie`
returns the cached credential with no error, performs no login, and leaves
the whole record unchanged. -/
theorem c1_cached_fresh_no_login (now : Int) (s : WgServer) (net : LoginNet)
    (c : String) (exp : Int)
    (hc : s.session_cookie = some c) (hne : c ≠ "")
    (he : s.session_expires_at = some exp) (hfresh : now + 60 < exp) :
    ensureSessionCookie now s net =
      { cookie := some c, error := none, server := s, loginAttempted := false } := by
  have hfreshb : cacheFresh now s = true := by
    unfold cacheFresh
    rw [hc, he]
    simp [hne, hfresh]
  unfold ensureSessionCookie
  rw [hfreshb]
  simp [hc]

/-- Witness for `c1_cached_fresh_no_login` at a concrete fresh cache. -/
theorem c1_cached_fresh_no_login_witness :
    ensureSessionCookie 0 ⟨true, none, none, some "tok", some 1000⟩
        (LoginNet.failure "network down") =
      { cookie := some "tok", error := none,
        server := ⟨true, none, none, some "tok", some 1000⟩,
        loginAttempted := false } :=
  c1_cached_fresh_no_login 0 ⟨true, none, none, some "tok", some 1000⟩
    (LoginNet.failure "network down") "tok" 1000 rfl (by decide) rfl (by decide)

/-- C6: when the cache is not fresh and the login exchange fails (transport
failure, non-200 status, or missing `wg-easy` cookie in the response),
`_ensure_session_cookie` returns an error and no cookie, marks the remote
unhealthy with a failure reason, updates the last-checked time to now, and
leaves the previously cached credential and its expiry unchanged. -/
theorem c6_refresh_failure_frame (now : Int) (s : WgServer) (net : LoginNet)
    (hmiss : cacheFresh now s = false) (hfail : loginSucceeds net = false) :
    (ensureSessionCookie now s net).cookie = none ∧
    (ensureSessionCookie now s net).error.isSome = true ∧
    (ensureSessionCookie now s net).loginAttempted = true ∧
    (ensureSessionCookie now s net).server.last_status_ok = false ∧
    (ensureSessionCookie now s net).server.last_error.isSome = true ∧
    (ensureSessionCookie now s net).server.last_checked_at = some now ∧
    (ensureSessionCookie now s net).server.session_cookie = s.session_cookie ∧
    (ensureSessionCookie now s net).server.session_expires_at = s.session_expires_at := by
  unfold ensureSessionCookie
  rw [hmiss]
  simp only [Bool.false_eq_true, if_false]
  rcases net with msg | ⟨status, sc⟩
  · simp [performLogin]
  · by_cases hst : status = 200
    · subst hst
      rcases sc with _ | v
      · simp [performLogin]
      · by_cases hve : v = ""
        · simp [performLogin, hve]
        · by_cases hw : hasWgEasy v = true
          · exfalso
            unfold loginSucceeds at hfail
            simp [hve, hw] at hfail
          · simp [performLogin, hve, hw]
    · simp [performLogin, hst]

/-- Witness for `c6_refresh_failure_frame`: an expired cache and a 500
response leave the cached token and expiry untouched while recording the
failure. -/
theorem c6_refresh_failure_frame_witness :
    (ensureSessionCookie 5000 ⟨true, none, none, some "tok", some 100⟩
        (LoginNet.response 500 none)).cookie = none ∧
    (ensureSessionCookie 5000 ⟨true, none, none, some "tok", some 100⟩
        (LoginNet.response 500 none)).error.isSome = true ∧
    (ensureSessionCookie 5000 ⟨true, none, none, some "tok", some 100⟩
        (LoginNet.response 500 none)).loginAttempted = true ∧
    (ensureSessionCookie 5000 ⟨true, none, none, some "tok", some 100⟩
        (LoginNet.response 500 none)).server.last_status_ok = false ∧
    (ensureSessionCookie 5000 ⟨true, none, none, some "tok", some 100⟩
        (LoginNet.response 500 none)).server.last_error.isSome = true ∧
    (ensureSessionCookie 5000 ⟨true, none, none, some "tok", some 100⟩
        (LoginNet.response 500 none)).server.last_checked_at = some 5000 ∧
    (ensureSessionCookie 5000 ⟨true, none, none, some "tok", some 100⟩
        (LoginNet.response 500 none)).server.session_cookie = some "tok" ∧
    (ensureSessionCookie 5000 ⟨true, none, none, some "tok", some 100⟩
        (LoginNet.response 500 none)).server.session_expires_at = some 100 :=
  c6_refresh_failure_frame 5000 ⟨true, none, none, some "tok", some 100⟩
    (LoginNet.response 500 none) (by decide) (by decide)

/-- C7, counterexample: after an authoritative login rejection (HTTP 401,
an expired cached token) the session fields are *not* cleared: the stale
token and expiry remain stored, refuting the claim that an authoritative
rejection empties both fields. -/
theorem c7_counterexample :
    (ensureSessionCookie 100 ⟨true, none, none, some "oldtok", some 0⟩
      (LoginNet.response 401 none)).error.isSome = true ∧
    (ensureSessionCookie 100 ⟨true, none, none, some "oldtok", some 0⟩
      (LoginNet.response 401 none)).loginAttempted = true ∧
    (ensureSessionCookie 100 ⟨true, none, none, some "oldtok", some 0⟩
      (LoginNet.response 401 none)).server.session_cookie = some "oldtok" ∧
    (ensureSessionCookie 100 ⟨true, none, none, some "oldtok", some 0⟩
      (LoginNet.response 401 none)).server.session_expires_at = some 0 := by
  decide

/-- C7 (amended): the session cache never clears the cached session fields.
On every outcome, either both fields are left exactly as they were (every
failure path, and the fresh-cache fast path), or both are overwritten
together: the token with an expiry 3600 seconds from now, on a successful
refresh. -/
theorem c7_session_fields_never_cleared (now : Int) (s : WgServer) (net : LoginNet) :
    ((ensureSessionCookie now s net).server.session_cookie = s.session_cookie ∧
     (ensureSessionCookie now s net).server.session_expires_at = s.session_expires_at) ∨
    (∃ c, (ensureSessionCookie now s net).server.session_cookie = some c ∧
      (ensureSessionCookie now s net).server.session_expires_at = some (now + 3600) ∧
      (ensureSessionCookie now s net).cookie = some c ∧
      (ensureSessionCookie now s net).error = none) := by
  unfold ensureSessionCookie
  by_cases hfresh : cacheFresh now s = true
  · rw [if_pos hfresh]
    left
    exact ⟨rfl, rfl⟩
  · simp only [Bool.not_eq_true] at hfresh
    rw [hfresh]
    simp only [Bool.false_eq_true, if_false]
    rcases net with msg | ⟨status, sc⟩
    · left; exact ⟨rfl, rfl⟩
    · by_cases hst : status = 200
      · subst hst
        rcases sc with _ | v
        · left; exact ⟨rfl, rfl⟩
        · by_cases hve : v = ""
          · left
            constructor <;> simp [performLogin, hve]
          · by_cases hw : hasWgEasy v = true
            · right
              refine ⟨extractCookie v, ?_, ?_, ?_, ?_⟩ <;>
                simp [performLogin, hve, hw]
            · left
              constructor <;> simp [performLogin, hve, hw]
      · left
        constructor <;> simp [performLogin, hst]


/-- C8: when the cache is not fresh and the login exchange succeeds (200
status and a `wg-easy` cookie present in the response),
`_ensure_session_cookie` stores the extracted credential together with an
expiry exactly 3600 seconds from now, marks the remote healthy with the
last error cleared and the last-checked time updated, and returns that
credential with no error. -/
theorem c8_refresh_success (now : Int) (s : WgServer) (sc : String)
    (hmiss : cacheFresh now s = false) (hne : sc ≠ "")
    (hwg : hasWgEasy sc = true) :
    ensureSessionCookie now s (LoginNet.response 200 (some sc)) =
      { cookie := some (extractCookie sc)
        error := none
        server := { s with
          session_cookie := some (extractCookie sc)
          session_expires_at := some (now + 3600)
          last_status_ok := true
          last_error := none
          last_checked_at := some now }
        loginAttempted := true } := by
  unfold ensureSessionCookie
  rw [hmiss]
  simp only [Bool.false_eq_true, if_false]
  simp [performLogin, hne, hwg]

/-- Witness for `c8_refresh_success`: an empty cache refreshed by a 200
response carrying `wg-easy=abc; HttpOnly` stores the token `abc` with
expiry 3600 and reports healthy. -/
theorem c8_refresh_success_witness :
    ensureSessionCookie 0 ⟨false, some 7, some "old failure", none, none⟩
        (LoginNet.response 200 (some "wg-easy=abc; HttpOnly")) =
      { cookie := some "abc"
        error := none
        server := ⟨true, some 0, none, some "abc", some 3600⟩
        loginAttempted := true } := by
  have h := c8_refresh_success 0 ⟨false, some 7, some "old failure", none, none⟩
    "wg-easy=abc; HttpOnly" (by decide) (by decide) (by decide)
  rw [h]
  decide

/-- C9: `create_client`, once the session step has produced a cookie,
always sends a payload carrying an explicit `expiresAt` key, which is JSON
null exactly when no expiry was given; every non-200 status and every 200
response whose own success flag is false yields an error and no peer id;
and the remote-assigned id is returned exactly when the status is 200 and
the success flag is true. -/
theorem c9_create_client (sess : Option String × Option String) (name : String)
    (expires_at : Option Int) (net : CreateNet)
    (herr : strTruthy sess.2 = false) (hcookie : strTruthy sess.1 = true) :
    (∃ p, (create_client sess name expires_at net).sentPayload = some p ∧
      ("expiresAt", expiryField expires_at) ∈ p ∧
      (expiryField expires_at = JsonField.null ↔ expires_at = none)) ∧
    (∀ msg, net = CreateNet.failure msg →
      (create_client sess name expires_at net).clientId = none ∧
      (create_client sess name expires_at net).error = some msg) ∧
    (∀ status success cid text, net = CreateNet.response status success cid text →
      ((status = 200 ∧ success = true) →
        (create_client sess name expires_at net).clientId = some cid ∧
        (create_client sess name expires_at net).error = none) ∧
      ((status ≠ 200 ∨ success = false) →
        (create_client sess name expires_at net).clientId = none ∧
        (create_client sess name expires_at net).error.isSome = true)) := by
  obtain ⟨cookie, error⟩ := sess
  simp only at herr hcookie
  refine ⟨?_, ?_, ?_⟩
  · refine ⟨[("name", JsonField.str name), ("expiresAt", expiryField expires_at)],
      ?_, by simp, ?_⟩
    · rcases net with msg | ⟨status, success, cid, text⟩
      · simp [create_client, herr, hcookie]
      · by_cases hst : status = 200
        · subst hst
          by_cases hsucc : success = true
          · simp [create_client, herr, hcookie, hsucc]
          · simp [create_client, herr, hcookie, hsucc]
        · simp [create_client, herr, hcookie, hst]
    · cases expires_at with
      | none => simp [expiryField]
      | some t => simp [expiryField]
  · rintro msg rfl
    simp [create_client, herr, hcookie]
  · rintro status success cid text rfl
    constructor
    · rintro ⟨hst, hsucc⟩
      subst hst
      subst hsucc
      simp [create_client, herr, hcookie]
    · rintro (hst | hsucc)
      · simp [create_client, herr, hcookie, hst]
      · subst hsucc
        by_cases hst : status = 200
        · subst hst
          simp [create_client, herr, hcookie]
        · simp [create_client, herr, hcookie, hst]

/-- Witness for `c9_create_client` at a concrete session, peer name, absent
expiry, and a 200 response whose success flag is false (still an error). -/
theorem c9_create_client_witness :
    (∃ p, (create_client (some "tok", none) "alice" none
        (CreateNet.response 200 false 5 "body")).sentPayload = some p ∧
      ("expiresAt", expiryField none) ∈ p ∧
      (expiryField none = JsonField.null ↔ (none : Option Int) = none)) ∧
    (∀ msg, CreateNet.response 200 false 5 "body" = CreateNet.failure msg →
      (create_client (some "tok", none) "alice" none
        (CreateNet.response 200 false 5 "body")).clientId = none ∧
      (create_client (some "tok", none) "alice" none
        (CreateNet.response 200 false 5 "body")).error = some msg) ∧
    (∀ status success cid text,
      CreateNet.response 200 false 5 "body" = CreateNet.response status success cid text →
      ((status = 200 ∧ success = true) →
        (create_client (some "tok", none) "alice" none
          (CreateNet.response 200 false 5 "body")).clientId = some cid ∧
        (create_client (some "tok", none) "alice" none
          (CreateNet.response 200 false 5 "body")).error = none) ∧
      ((status ≠ 200 ∨ success = false) →
        (create_client (some "tok", none) "alice" none
          (CreateNet.response 200 false 5 "body")).clientId = none ∧
        (create_client (some "tok", none) "alice" none
          (CreateNet.response 200 false 5 "body")).error.isSome = true)) :=
  c9_create_client (some "tok", none) "alice" none
    (CreateNet.response 200 false 5 "body") (by decide) (by decide)

/-! ### Helper lemmas about the folded minimum / maximum -/

lemma foldl_min_le_init (xs : List Int) (a : Int) : xs.foldl min a ≤ a := by
  induction xs generalizing a with
  | nil => simp
  | cons x xs ih =>
      simp only [List.foldl_cons]
      exact le_trans (ih (min a x)) (min_le_left a x)

lemma foldl_min_le_mem (xs : List Int) (a : Int) :
    ∀ x ∈ xs, xs.foldl min a ≤ x := by
  induction xs generalizing a with
  | nil => simp
  | cons y ys ih =>
      intro x hx
      rcases List.mem_cons.mp hx with h | h
      · subst h
        simp only [List.foldl_cons]
        exact le_trans (foldl_min_le_init ys (min a x)) (min_le_right a x)
      · exact ih (min a y) x h

lemma foldl_min_mem (xs : List Int) (a : Int) :
    xs.foldl min a = a ∨ xs.foldl min a ∈ xs := by
  induction xs generalizing a with
  | nil => left; rfl
  | cons y ys ih =>
      simp only [List.foldl_cons]
      rcases ih (min a y) with h | h
      · rcases le_total a y with hay | hya
        · left; rw [h, min_eq_left hay]
        · right; rw [h, min_eq_right hya]; exact List.mem_cons_self y ys
      · right; exact List.mem_cons_of_mem y h

lemma init_le_foldl_max (xs : List Int) (a : Int) : a ≤ xs.foldl max a := by
  induction xs generalizing a with
  | nil => simp
  | cons x xs ih =>
      simp only [List.foldl_cons]
      exact le_trans (le_max_left a x) (ih (max a x))

lemma mem_le_foldl_max (xs : List Int) (a : Int) :
    ∀ x ∈ xs, x ≤ xs.foldl max a := by
  induction xs generalizing a with
  | nil => simp
  | cons y ys ih =>
      intro x hx
      rcases List.mem_cons.mp hx with h | h
      · subst h
        simp only [List.foldl_cons]
        exact le_trans (le_max_right a x) (init_le_foldl_max ys (max a x))
      · exact ih (max a y) x h

lemma foldl_max_mem (xs : List Int) (a : Int) :
    xs.foldl max a = a ∨ xs.foldl max a ∈ xs := by
  induction xs generalizing a with
  | nil => left; rfl
  | cons y ys ih =>
      simp only [List.foldl_cons]
      rcases ih (max a y) with h | h
      · rcases le_total a y with hay | hya
        · right; rw [h, max_eq_right hay]; exact List.mem_cons_self y ys
        · left; rw [h, max_eq_left hya]
      · right; exact List.mem_cons_of_mem y h

lemma listMin_mem (xs : List Int) (hne : xs ≠ []) : listMin xs ∈ xs := by
  cases xs with
  | nil => exact absurd rfl hne
  | cons x rest =>
      show List.foldl min x rest ∈ x :: rest
      rcases foldl_min_mem rest x with h | h
      · rw [h]; exact List.mem_cons_self x rest
      · exact List.mem_cons_of_mem x h

lemma listMin_le (xs : List Int) (x : Int) (hx : x ∈ xs) : listMin xs ≤ x := by
  cases xs with
  | nil => cases hx
  | cons y rest =>
      show List.foldl min y rest ≤ x
      rcases List.mem_cons.mp hx with h | h
      · subst h; exact foldl_min_le_init rest x
      · exact foldl_min_le_mem rest y x h

lemma listMax_mem (xs : List Int) (hne : xs ≠ []) : listMax xs ∈ xs := by
  cases xs with
  | nil => exact absurd rfl hne
  | cons x rest =>
      show List.foldl max x rest ∈ x :: rest
      rcases foldl_max_mem rest x with h | h
      · rw [h]; exact List.mem_cons_self x rest
      · exact List.mem_cons_of_mem x h

lemma le_listMax (xs : List Int) (x : Int) (hx : x ∈ xs) : x ≤ listMax xs := by
  cases xs with
  | nil => cases hx
  | cons y rest =>
      show x ≤ List.foldl max y rest
      rcases List.mem_cons.mp hx with h | h
      · subst h; exact init_le_foldl_max rest x
      · exact mem_le_foldl_max rest y x h

/-- C2: `get_traffic_delta_for_period` returns `(0, 0)` whenever fewer than
2 samples fall in the window ending now; otherwise it returns the clamped
difference between the in-window maximum and minimum of each cumulative
counter (the extremes are attained by in-window samples and bound every
in-window sample, so a mid-window counter reset is clamped by max-minus-min
semantics, not last-minus-first); both components are always non-negative. -/
theorem c2_delta_for_window (store : TrafficStore) (server_id period_seconds now : Int) :
    ((windowOf (store server_id) now period_seconds).length < 2 →
      get_traffic_delta_for_period store server_id period_seconds now = (0, 0)) ∧
    (2 ≤ (windowOf (store server_id) now period_seconds).length →
      ∃ a ∈ windowOf (store server_id) now period_seconds,
      ∃ b ∈ windowOf (store server_id) now period_seconds,
      ∃ c ∈ windowOf (store server_id) now period_seconds,
      ∃ d ∈ windowOf (store server_id) now period_seconds,
        (∀ h ∈ windowOf (store server_id) now period_seconds,
          a.total_rx ≤ h.total_rx ∧ h.total_rx ≤ b.total_rx ∧
          c.total_tx ≤ h.total_tx ∧ h.total_tx ≤ d.total_tx) ∧
        get_traffic_delta_for_period store server_id period_seconds now =
          (max 0 (b.total_rx - a.total_rx), max 0 (d.total_tx - c.total_tx))) ∧
    0 ≤ (get_traffic_delta_for_period store server_id period_seconds now).1 ∧
    0 ≤ (get_traffic_delta_for_period store server_id period_seconds now).2 ∧
    get_traffic_delta_for_period
      (fun _ => [⟨10, 100, 50⟩, ⟨20, 140, 90⟩] : TrafficStore) 1 3600 30 = (40, 40) := by
  by_cases hlen : (windowOf (store server_id) now period_seconds).length < 2
  · have hres : get_traffic_delta_for_period store server_id period_seconds now = (0, 0) := by
      by_cases hh : (store server_id).isEmpty
      · simp [get_traffic_delta_for_period, hh]
      · simp [get_traffic_delta_for_period, hh, hlen]
    refine ⟨fun _ => hres, fun hge => absurd hge (by omega), ?_, ?_, by decide⟩
    · rw [hres]
    · rw [hres]
  · have hge : 2 ≤ (windowOf (store server_id) now period_seconds).length := by omega
    have hwne : windowOf (store server_id) now period_seconds ≠ [] := by
      intro h
      rw [h] at hge
      simp at hge
    have hh : (store server_id).isEmpty = false := by
      cases hsl : store server_id with
      | nil =>
          exfalso
          apply hwne
          unfold windowOf
          rw [hsl]
          rfl
      | cons x xs => simp [hsl]
    have hres : get_traffic_delta_for_period store server_id period_seconds now =
        (max 0 (listMax ((windowOf (store server_id) now period_seconds).map TrafficSample.total_rx) -
                listMin ((windowOf (store server_id) now period_seconds).map TrafficSample.total_rx)),
         max 0 (listMax ((windowOf (store server_id) now period_seconds).map TrafficSample.total_tx) -
                listMin ((windowOf (store server_id) now period_seconds).map TrafficSample.total_tx))) := by
      simp [get_traffic_delta_for_period, hh, hlen]
    have hmapne : ∀ f : TrafficSample → Int,
        (windowOf (store server_id) now period_seconds).map f ≠ [] := by
      intro f h
      exact hwne (List.map_eq_nil_iff.mp h)
    obtain ⟨a, ha, hamin⟩ := List.mem_map.mp
      (listMin_mem _ (hmapne TrafficSample.total_rx))
    obtain ⟨b, hb, hbmax⟩ := List.mem_map.mp
      (listMax_mem _ (hmapne TrafficSample.total_rx))
    obtain ⟨c, hc, hcmin⟩ := List.mem_map.mp
      (listMin_mem _ (hmapne TrafficSample.total_tx))
    obtain ⟨d, hd, hdmax⟩ := List.mem_map.mp
      (listMax_mem _ (hmapne TrafficSample.total_tx))
    refine ⟨fun h => absurd h (by omega), fun _ =>
      ⟨a, ha, b, hb, c, hc, d, hd, ?_, ?_⟩, ?_, ?_, by decide⟩
    · intro h hmem
      refine ⟨?_, ?_, ?_, ?_⟩
      · rw [hamin]
        exact listMin_le _ _ (List.mem_map_of_mem TrafficSample.total_rx hmem)
      · rw [hbmax]
        exact le_listMax _ _ (List.mem_map_of_mem TrafficSample.total_rx hmem)
      · rw [hcmin]
        exact listMin_le _ _ (List.mem_map_of_mem TrafficSample.total_tx hmem)
      · rw [hdmax]
        exact le_listMax _ _ (List.mem_map_of_mem TrafficSample.total_tx hmem)
    · rw [hres, hamin, hbmax, hcmin, hdmax]
    · rw [hres]
      exact le_max_left 0 _
    · rw [hres]
      exact le_max_left 0 _

/-- C3: after `record_traffic_snapshot` returns, the remote's series holds
no sample whose timestamp is older than 7 days before the appended sample's
timestamp `now`; the new sample `(now, rx, tx)` is present at the end of
the series; and the part before it is a sublist of the previous series
(samples are only dropped by pruning, never modified). -/
theorem c3_record_snapshot (store : TrafficStore) (sid now rx tx : Int) :
    (∀ h ∈ record_traffic_snapshot store sid now rx tx sid,
      now - 7 * 86400 ≤ h.ts) ∧
    ∃ pre, record_traffic_snapshot store sid now rx tx sid =
        pre ++ [⟨now, rx, tx⟩] ∧ pre.Sublist (store sid) := by
  have hkeep : now - 7 * 86400 ≤ now := by omega
  have hred : record_traffic_snapshot store sid now rx tx sid =
      ((store sid).filter (fun h => now - 7 * 86400 ≤ h.ts)) ++ [⟨now, rx, tx⟩] := by
    simp [record_traffic_snapshot, List.filter_append, hkeep]
  constructor
  · intro h hmem
    rw [hred] at hmem
    rcases List.mem_append.mp hmem with hm | hm
    · have := (List.mem_filter.mp hm).2
      exact of_decide_eq_true this
    · have : h = ⟨now, rx, tx⟩ := by simpa using hm
      rw [this]
      exact hkeep
  · exact ⟨_, hred, List.filter_sublist _⟩

/-! ### Helper lemmas about the import loop -/

lemma hasBindingForPeer_append_left (l1 l2 : List Binding) (sid cid : Int)
    (h : hasBindingForPeer l1 sid cid = true) :
    hasBindingForPeer (l1 ++ l2) sid cid = true := by
  unfold hasBindingForPeer at h ⊢
  rw [List.any_append, h, Bool.true_or]

lemma hasBindingForPeer_append_right (l1 l2 : List Binding) (sid cid : Int)
    (h : hasBindingForPeer l2 sid cid = true) :
    hasBindingForPeer (l1 ++ l2) sid cid = true := by
  unfold hasBindingForPeer at h ⊢
  rw [List.any_append, h, Bool.or_true]

lemma importStep_fold_spec (server_id : Int) :
    ∀ (clients : List ClientInfo) (reg : Registry) (cu cb : Nat),
    ∃ newUs newBs,
      (clients.foldl (importStep server_id) (reg, cu, cb)).1.users
        = reg.users ++ newUs ∧
      (clients.foldl (importStep server_id) (reg, cu, cb)).1.bindings
        = reg.bindings ++ newBs ∧
      (clients.foldl (importStep server_id) (reg, cu, cb)).2.1
        = cu + newUs.length ∧
      (clients.foldl (importStep server_id) (reg, cu, cb)).2.2
        = cb + newBs.length ∧
      newUs.length = newBs.length ∧
      (∀ b ∈ newBs, ∃ c ∈ clients, b.server_id = server_id ∧
        b.wg_client_id = c.id ∧ b.wg_client_name = c.name ∧
        b.expires_at = c.expires_at) := by
  intro clients
  induction clients with
  | nil =>
      intro reg cu cb
      exact ⟨[], [], by simp, by simp, by simp, by simp, rfl, by simp⟩
  | cons c cs ih =>
      intro reg cu cb
      by_cases hskip : hasBindingForPeer reg.bindings server_id c.id = true
      · have hstep : importStep server_id (reg, cu, cb) c = (reg, cu, cb) := by
          simp [importStep, hskip]
        obtain ⟨newUs, newBs, hu, hb, hcu, hcb, hlen, hmem⟩ := ih reg cu cb
        refine ⟨newUs, newBs, ?_, ?_, ?_, ?_, hlen, ?_⟩
        · rw [List.foldl_cons, hstep]; exact hu
        · rw [List.foldl_cons, hstep]; exact hb
        · rw [List.foldl_cons, hstep]; exact hcu
        · rw [List.foldl_cons, hstep]; exact hcb
        · intro b hbm
          obtain ⟨c', hc', hprop⟩ := hmem b hbm
          exact ⟨c', List.mem_cons_of_mem c hc', hprop⟩
      · have hstep : importStep server_id (reg, cu, cb) c =
            ({ users := reg.users ++ [⟨reg.nextUserId, c.name⟩]
               bindings := reg.bindings ++
                 [⟨reg.nextUserId, server_id, c.id, c.name, c.expires_at⟩]
               nextUserId := reg.nextUserId + 1 }, cu + 1, cb + 1) := by
          simp [importStep, hskip]
        obtain ⟨newUs, newBs, hu, hb, hcu, hcb, hlen, hmem⟩ :=
          ih { users := reg.users ++ [⟨reg.nextUserId, c.name⟩]
               bindings := reg.bindings ++
                 [⟨reg.nextUserId, server_id, c.id, c.name, c.expires_at⟩]
               nextUserId := reg.nextUserId + 1 } (cu + 1) (cb + 1)
        refine ⟨⟨reg.nextUserId, c.name⟩ :: newUs,
          ⟨reg.nextUserId, server_id, c.id, c.name, c.expires_at⟩ :: newBs,
          ?_, ?_, ?_, ?_, ?_, ?_⟩
        · rw [List.foldl_cons, hstep, hu]; simp
        · rw [List.foldl_cons, hstep, hb]; simp
        · rw [List.foldl_cons, hstep, hcu]; simp; omega
        · rw [List.foldl_cons, hstep, hcb]; simp; omega
        · simp [hlen]
        · intro b hbm
          rcases List.mem_cons.mp hbm with hbm | hbm
          · exact ⟨c, List.mem_cons_self c cs, by rw [hbm], by rw [hbm],
              by rw [hbm], by rw [hbm]⟩
          · obtain ⟨c', hc', hprop⟩ := hmem b hbm
            exact ⟨c', List.mem_cons_of_mem c hc', hprop⟩

lemma importStep_fold_covers (server_id : Int) :
    ∀ (clients : List ClientInfo) (st : Registry × Nat × Nat),
    ∀ c ∈ clients,
      hasBindingForPeer
        (clients.foldl (importStep server_id) st).1.bindings server_id c.id = true := by
  intro clients
  induction clients with
  | nil => intro st c hc; cases hc
  | cons c0 cs ih =>
      intro st c hc
      rw [List.foldl_cons]
      rcases List.mem_cons.mp hc with hc | hc
      · subst hc
        -- after processing `c`, a binding for (server_id, c.id) exists,
        -- and the rest of the fold only appends bindings
        have hafter : hasBindingForPeer
            (importStep server_id st c).1.bindings server_id c.id = true := by
          obtain ⟨reg, cu, cb⟩ := st
          by_cases hskip : hasBindingForPeer reg.bindings server_id c.id = true
          · simp [importStep, hskip]
          · have hone : hasBindingForPeer
                [⟨reg.nextUserId, server_id, c.id, c.name, c.expires_at⟩]
                server_id c.id = true := by
              simp [hasBindingForPeer]
            have happ := hasBindingForPeer_append_right reg.bindings
              [⟨reg.nextUserId, server_id, c.id, c.name, c.expires_at⟩]
              server_id c.id hone
            simpa [importStep, hskip] using happ
        obtain ⟨newUs, newBs, _, hb, _, _, _, _⟩ :=
          importStep_fold_spec server_id cs (importStep server_id st c).1
            (importStep server_id st c).2.1 (importStep server_id st c).2.2
        have hfold_eq : cs.foldl (importStep server_id) (importStep server_id st c)
            = cs.foldl (importStep server_id)
                ((importStep server_id st c).1, (importStep server_id st c).2.1,
                 (importStep server_id st c).2.2) := by
          congr 1
        rw [hfold_eq, hb]
        exact hasBindingForPeer_append_left _ _ _ _ hafter
      · exact ih (importStep server_id st c0) c hc

lemma importStep_fold_stable (server_id : Int) :
    ∀ (clients : List ClientInfo) (reg : Registry) (cu cb : Nat),
    (∀ c ∈ clients, hasBindingForPeer reg.bindings server_id c.id = true) →
    clients.foldl (importStep server_id) (reg, cu, cb) = (reg, cu, cb) := by
  intro clients
  induction clients with
  | nil => intro reg cu cb _; rfl
  | cons c cs ih =>
      intro reg cu cb hall
      rw [List.foldl_cons]
      have hstep : importStep server_id (reg, cu, cb) c = (reg, cu, cb) := by
        simp [importStep, hall c (List.mem_cons_self c cs)]
      rw [hstep]
      exact ih reg cu cb (fun c' hc' => hall c' (List.mem_cons_of_mem c hc'))

/-- C4: importing the same peer list twice is idempotent — the second pass
returns the registry unchanged with zero created logical users and zero
created bindings, because every peer's `(remote id, remote peer id)` pair
already has a binding after the first pass (names play no role in the
dedup key, so this holds even when peer names collide). -/
theorem c4_import_idempotent (server_id : Int) (reg : Registry)
    (clients : List ClientInfo) :
    import_clients_from_server server_id
        (import_clients_from_server server_id reg clients).1 clients =
      ((import_clients_from_server server_id reg clients).1, 0, 0) := by
  unfold import_clients_from_server
  apply importStep_fold_stable
  intro c hc
  exact importStep_fold_covers server_id clients (reg, 0, 0) c hc

/-- C10: in every import pass the count of created logical users equals the
count of created bindings; the registry grows by exactly that many users
and bindings, and every new binding copies its peer's id, name and expiry
from some peer in the imported list. -/
theorem c10_import_counts (server_id : Int) (reg : Registry)
    (clients : List ClientInfo) :
    (import_clients_from_server server_id reg clients).2.1 =
      (import_clients_from_server server_id reg clients).2.2 ∧
    ∃ newUs newBs,
      (import_clients_from_server server_id reg clients).1.users
        = reg.users ++ newUs ∧
      (import_clients_from_server server_id reg clients).1.bindings
        = reg.bindings ++ newBs ∧
      newUs.length = (import_clients_from_server server_id reg clients).2.1 ∧
      newBs.length = (import_clients_from_server server_id reg clients).2.2 ∧
      ∀ b ∈ newBs, ∃ c ∈ clients, b.server_id = server_id ∧
        b.wg_client_id = c.id ∧ b.wg_client_name = c.name ∧
        b.expires_at = c.expires_at := by
  obtain ⟨newUs, newBs, hu, hb, hcu, hcb, hlen, hmem⟩ :=
    importStep_fold_spec server_id clients reg 0 0
  unfold import_clients_from_server
  refine ⟨?_, newUs, newBs, hu, hb, ?_, ?_, hmem⟩
  · rw [hcu, hcb, hlen]
  · rw [hcu]; omega
  · rw [hcb]; omega

/-! ### Helper lemmas about the mass-attach loop -/

lemma hasBindingForServer_append (l1 l2 : List Binding) (uid sid : Int) :
    hasBindingForServer (l1 ++ l2) uid sid =
      (hasBindingForServer l1 uid sid || hasBindingForServer l2 uid sid) := by
  unfold hasBindingForServer
  exact List.any_append

lemma massAttach_fold (user_id : Int) (user_name : String)
    (expires_at : Option Int) (net : Int → Option Int × Option String)
    (p : Int → Bool) :
    ∀ (servers : List ServerRec) (st : MassAttachState),
    (servers.map ServerRec.id).Nodup →
    (∀ s ∈ servers, hasBindingForServer st.bindings user_id s.id = p s.id) →
    (servers.foldl (massAttachStep user_id user_name expires_at net) st).skipped
      = st.skipped + (servers.filter (fun s => p s.id)).length ∧
    (servers.foldl (massAttachStep user_id user_name expires_at net) st).created +
      (servers.foldl (massAttachStep user_id user_name expires_at net) st).skipped +
      (servers.foldl (massAttachStep user_id user_name expires_at net) st).errors.length
      = st.created + st.skipped + st.errors.length + servers.length := by
  intro servers
  induction servers with
  | nil =>
      intro st _ _
      simp
  | cons s rest ih =>
      intro st hnodup hinv
      rw [List.map_cons, List.nodup_cons] at hnodup
      obtain ⟨hs_notin, hnodup_rest⟩ := hnodup
      have hs := hinv s (List.mem_cons_self s rest)
      rw [List.foldl_cons]
      by_cases hp : p s.id = true
      · have hstep : massAttachStep user_id user_name expires_at net st s =
            { st with skipped := st.skipped + 1 } := by
          simp [massAttachStep, hs, hp]
        have hinv' : ∀ s' ∈ rest,
            hasBindingForServer ({ st with skipped := st.skipped + 1 } :
              MassAttachState).bindings user_id s'.id = p s'.id := by
          intro s' hs'
          exact hinv s' (List.mem_cons_of_mem s hs')
        obtain ⟨hsk, hsum⟩ := ih { st with skipped := st.skipped + 1 }
          hnodup_rest hinv'
        rw [hstep]
        constructor
        · rw [hsk]
          simp only [List.filter_cons, hp, if_true]
          simp
          omega
        · rw [hsum]
          simp
          omega
      · have hpf : p s.id = false := by
          rw [Bool.not_eq_true] at hp
          exact hp
        by_cases hfail : strTruthy (net s.id).2 = true ∨ (net s.id).1 = none
        · have hstep : massAttachStep user_id user_name expires_at net st s =
              { st with errors := st.errors ++
                  [(s.name, errOrDefault (net s.id).2)] } := by
            rw [massAttachStep]
            rw [if_neg (by rw [hs, hpf]; simp)]
            rw [if_pos hfail]
          have hinv' : ∀ s' ∈ rest,
              hasBindingForServer ({ st with errors := st.errors ++
                [(s.name, errOrDefault (net s.id).2)] } :
                MassAttachState).bindings user_id s'.id = p s'.id := by
            intro s' hs'
            exact hinv s' (List.mem_cons_of_mem s hs')
          obtain ⟨hsk, hsum⟩ := ih _ hnodup_rest hinv'
          rw [hstep] at *
          constructor
          · rw [hsk]
            simp only [List.filter_cons, hpf]
            simp
          · rw [hsum]
            simp
            omega
        · have hstep : massAttachStep user_id user_name expires_at net st s =
              { st with
                created := st.created + 1
                bindings := st.bindings ++
                  [⟨user_id, s.id, (net s.id).1.getD 0, user_name, expires_at⟩] } := by
            rw [massAttachStep]
            rw [if_neg (by rw [hs, hpf]; simp)]
            rw [if_neg hfail]
          have hinv' : ∀ s' ∈ rest,
              hasBindingForServer (st.bindings ++
                [⟨user_id, s.id, (net s.id).1.getD 0, user_name, expires_at⟩])
                user_id s'.id = p s'.id := by
            intro s' hs'
            rw [hasBindingForServer_append]
            have hne : s.id ≠ s'.id := by
              intro heq
              apply hs_notin
              rw [heq]
              exact List.mem_map_of_mem ServerRec.id hs'
            have hsingle : hasBindingForServer
                [⟨user_id, s.id, (net s.id).1.getD 0, user_name, expires_at⟩]
                user_id s'.id = false := by
              simp [hasBindingForServer, hne]
            rw [hsingle, Bool.or_false]
            exact hinv s' (List.mem_cons_of_mem s hs')
          obtain ⟨hsk, hsum⟩ := ih { st with
              created := st.created + 1
              bindings := st.bindings ++
                [⟨user_id, s.id, (net s.id).1.getD 0, user_name, expires_at⟩] }
            hnodup_rest hinv'
          rw [hstep]
          constructor
          · rw [hsk]
            simp only [List.filter_cons, hpf]
            simp
          · rw [hsum]
            simp
            omega

/-- C5, counterexample: for one known remote, no prior binding, and a peer
creation that fails, mass-attach returns created = 0 and skipped = 0 with
one error entry, so created + skipped (0) differs from the number of known
remotes (1) — failed remotes are counted in neither total, refuting the
claim that created + skipped always equals the remote count. -/
theorem c5_counterexample :
    (attach_user_to_all_servers 1 "alice" none [⟨1, "srv1"⟩] []
      (fun _ => (none, some "connection refused"))).created +
    (attach_user_to_all_servers 1 "alice" none [⟨1, "srv1"⟩] []
      (fun _ => (none, some "connection refused"))).skipped ≠
    ([⟨1, "srv1"⟩] : List ServerRec).length ∧
    (attach_user_to_all_servers 1 "alice" none [⟨1, "srv1"⟩] []
      (fun _ => (none, some "connection refused"))).errors.length = 1 := by
  decide

/-- C5 (amended: failed attach attempts are counted separately, so the
accounting identity is created + skipped + failed = total): for known
remotes with distinct ids, mass-attach skips exactly those remotes on which
the user already has a binding, and every other remote is attempted —
ending in either a created binding or an error entry — so created +
skipped + errors equals the total number of known remotes (a failure on
one remote never prevents attempting the rest). -/
theorem c5_mass_attach (user_id : Int) (user_name : String)
    (expires_at : Option Int) (servers : List ServerRec)
    (bindings0 : List Binding) (net : Int → Option Int × Option String)
    (hnodup : (servers.map ServerRec.id).Nodup) :
    (attach_user_to_all_servers user_id user_name expires_at servers
        bindings0 net).skipped
      = (servers.filter
          (fun s => hasBindingForServer bindings0 user_id s.id)).length ∧
    (attach_user_to_all_servers user_id user_name expires_at servers
        bindings0 net).created +
      (attach_user_to_all_servers user_id user_name expires_at servers
        bindings0 net).skipped +
      (attach_user_to_all_servers user_id user_name expires_at servers
        bindings0 net).errors.length
      = servers.length := by
  obtain ⟨hsk, hsum⟩ := massAttach_fold user_id user_name expires_at net
    (fun sid => hasBindingForServer bindings0 user_id sid) servers
    ⟨0, 0, [], bindings0⟩ hnodup (fun s _ => rfl)
  unfold attach_user_to_all_servers
  constructor
  · simpa using hsk
  · simpa using hsum

/-- Witness for `c5_mass_attach`: user 7 is pre-bound on remote 2 of three
known remotes; creation succeeds on remote 1 and fails on remote 3, giving
skipped = 1 and created + skipped + errors = 3. -/
theorem c5_mass_attach_witness :
    (attach_user_to_all_servers 7 "bob" none
        [⟨1, "a"⟩, ⟨2, "b"⟩, ⟨3, "c"⟩] [⟨7, 2, 99, "bob", none⟩]
        (fun sid => if sid = 1 then (some 11, none)
          else (none, some "boom"))).skipped
      = (([⟨1, "a"⟩, ⟨2, "b"⟩, ⟨3, "c"⟩] : List ServerRec).filter
          (fun s => hasBindingForServer [⟨7, 2, 99, "bob", none⟩] 7 s.id)).length ∧
    (attach_user_to_all_servers 7 "bob" none
        [⟨1, "a"⟩, ⟨2, "b"⟩, ⟨3, "c"⟩] [⟨7, 2, 99, "bob", none⟩]
        (fun sid => if sid = 1 then (some 11, none)
          else (none, some "boom"))).created +
      (attach_user_to_all_servers 7 "bob" none
        [⟨1, "a"⟩, ⟨2, "b"⟩, ⟨3, "c"⟩] [⟨7, 2, 99, "bob", none⟩]
        (fun sid => if sid = 1 then (some 11, none)
          else (none, some "boom"))).skipped +
      (attach_user_to_all_servers 7 "bob" none
        [⟨1, "a"⟩, ⟨2, "b"⟩, ⟨3, "c"⟩] [⟨7, 2, 99, "bob", none⟩]
        (fun sid => if sid = 1 then (some 11, none)
          else (none, some "boom"))).errors.length
      = ([⟨1, "a"⟩, ⟨2, "b"⟩, ⟨3, "c"⟩] : List ServerRec).length :=
  c5_mass_attach 7 "bob" none [⟨1, "a"⟩, ⟨2, "b"⟩, ⟨3, "c"⟩]
    [⟨7, 2, 99, "bob", none⟩]
    (fun sid => if sid = 1 then (some 11, none) else (none, some "boom"))
    (by decide)

end WgWebUi
